import Mathlib

/-
  Verification of the fad_project audio pipeline against its design
  specification.

  Shallow embedding of:
  - src/main/fad_adc.c          (circular buffer pair, timer ISR sampler,
                                 buffer/timer initialization)
  - src/fad_algorithms/algo_masking.c  (FFT-based masking algorithm state)

  Conventions:
  - machine integers (uint16_t, uint8_t, int) are modelled as Nat / Int;
    cursor arithmetic uses explicit `% C` exactly where the C code does;
  - C floats/doubles are modelled as exact reals (Real), except for the
    static initializer of s_algo_total_time where the C *integer* division
    is modelled exactly (over Int, then cast);
  - the two collaborator functions that live outside src/
    (fad_app_work_dispatch from fad_app_core.c, dac_output from fad_dac.c)
    are modelled from the spec, and are marked as such;
  - the ISR's observable effects (heap allocation, dispatch attempt, buffer
    store, DAC emission, cursor advance) are recorded as an explicit action
    trace in source order.
-/

namespace Fad

/-- Status codes of esp_err_t as used by fad_adc.c (ESP_OK, ESP_ERR_NO_MEM). -/
inductive EspErr where
  | ok
  | errNoMem
deriving DecidableEq

/-- The dispatch event payload `adc_evt_params.buff_pos` of fad_adc.c:
a pair of buffer positions (adc_pos, dac_pos), both uint16_t. -/
structure AdcEvtParams where
  adc_pos : Nat
  dac_pos : Nat
deriving DecidableEq

/-- The global buffer/cursor state of fad_adc.c: `adc_buffer` (uint16_t*),
`dac_buffer` (uint8_t*), `adc_buffer_pos` and `dac_buffer_pos` (uint16_t). -/
structure AdcState where
  adc_buffer : List Nat
  dac_buffer : List Nat
  adc_buffer_pos : Nat
  dac_buffer_pos : Nat
deriving DecidableEq

/-- Modelled from the spec: the bounded Deferred Dispatch Queue of
fad_app_core.c (not under src/). A bounded FIFO of dispatch events with a
drop counter for the counted queue-full diagnostic. -/
structure DispatchQueue where
  cap : Nat
  events : List AdcEvtParams
  dropCount : Nat
deriving DecidableEq

/-- Modelled from the spec: `fad_app_work_dispatch` of fad_app_core.c (not
under src/) — a non-blocking try_enqueue. If the queue has room the event
is appended (FIFO) and true is returned; on queue-full the event is dropped,
the drop is counted as a diagnostic, and false is returned. -/
def fad_app_work_dispatch (q : DispatchQueue) (ev : AdcEvtParams) :
    DispatchQueue × Bool :=
  if q.events.length < q.cap then
    ({ q with events := q.events ++ [ev] }, true)
  else
    ({ q with dropCount := q.dropCount + 1 }, false)

/-- Modelled from the spec: `dac_output` of fad_dac.c (not under src/) —
emits the output-buffer sample at the given position to the DAC
("Emit buffer.output[output_cursor] to the analog output"). -/
def dac_output (buffer : List Nat) (pos : Nat) : Nat :=
  buffer.getD pos 0

/-- One observable effect of an execution of the timer interrupt handler,
in source order: heap allocation of the event record (`malloc`), the
dispatch attempt, `free` of the record, the store of one ADC sample,
the emission of one DAC sample, and the modular advance of both cursors. -/
inductive IsrAction where
  | mallocParams
  | dispatchEvt (ev : AdcEvtParams)
  | freeParams
  | storeAdc (idx sample : Nat)
  | emitDac (idx value : Nat)
  | advanceCursors
deriving DecidableEq

/-- Recognizes the dispatch-attempt action. -/
def IsrAction.isDispatchEvt : IsrAction → Bool
  | .dispatchEvt _ => true
  | _ => false

/-- Recognizes the heap-allocation action. -/
def IsrAction.isMalloc : IsrAction → Bool
  | .mallocParams => true
  | _ => false

/-- Result of one execution of the timer interrupt handler: the new
buffer/cursor state, the new dispatch-queue state, the ordered trace of
observable actions, and the returned yield flag. -/
structure TickResult where
  state : AdcState
  queue : DispatchQueue
  actions : List IsrAction
  yield : Bool
deriving DecidableEq

/-- `adc_timer_intr_handler` of fad_adc.c. `C` is ADC_BUFFER_SIZE and `B`
is adc_algo_size (both from fad_defs.h, configuration constants); `sample`
is the value returned by `adc1_get_raw`. Source order:
if `adc_buffer_pos % adc_algo_size == 0` then malloc an event record
carrying the current (adc_buffer_pos, dac_buffer_pos), call
fad_app_work_dispatch on it and free the record; then store the sample at
`adc_buffer[adc_buffer_pos]`; then `dac_output(dac_buffer, dac_buffer_pos)`;
then advance both cursors by one modulo ADC_BUFFER_SIZE; return false. -/
def adc_timer_intr_handler (C B : Nat) (sample : Nat)
    (s : AdcState) (q : DispatchQueue) : TickResult :=
  let params : AdcEvtParams := ⟨s.adc_buffer_pos, s.dac_buffer_pos⟩
  let q1 := if s.adc_buffer_pos % B = 0 then (fad_app_work_dispatch q params).1 else q
  let pre : List IsrAction :=
    if s.adc_buffer_pos % B = 0 then
      [.mallocParams, .dispatchEvt params, .freeParams]
    else []
  let emitted := dac_output s.dac_buffer s.dac_buffer_pos
  { state :=
      { adc_buffer := s.adc_buffer.set s.adc_buffer_pos sample
        dac_buffer := s.dac_buffer
        adc_buffer_pos := (s.adc_buffer_pos + 1) % C
        dac_buffer_pos := (s.dac_buffer_pos + 1) % C }
    queue := q1
    actions := pre ++
      [.storeAdc s.adc_buffer_pos sample,
       .emitDac s.dac_buffer_pos emitted,
       .advanceCursors]
    yield := false }

/-- The buffer/cursor state established by a successful `adc_buffer_init`:
both buffers calloc-zeroed to ADC_BUFFER_SIZE elements, `adc_buffer_pos = 0`,
`dac_buffer_pos = ADC_BUFFER_SIZE - adc_algo_size`. -/
def adcInitState (C B : Nat) : AdcState :=
  { adc_buffer := List.replicate C 0
    dac_buffer := List.replicate C 0
    adc_buffer_pos := 0
    dac_buffer_pos := C - B }

/-- `adc_buffer_init` of fad_adc.c. The two Bool arguments model the
success of the two calloc calls (false = NULL returned). On either
allocation failure ESP_ERR_NO_MEM is returned (and no state is
established); otherwise ESP_OK with the zeroed buffers and the cursors
`adc_buffer_pos = 0`, `dac_buffer_pos = ADC_BUFFER_SIZE - adc_algo_size`.
Note the source performs no check that adc_algo_size divides
ADC_BUFFER_SIZE. -/
def adc_buffer_init (C B : Nat) (adcAllocOk dacAllocOk : Bool) :
    EspErr × Option AdcState :=
  if adcAllocOk = false then (.errNoMem, none)
  else if dacAllocOk = false then (.errNoMem, none)
  else (.ok, some (adcInitState C B))

/-- `adc_init` of fad_adc.c. After the ADC width/attenuation configuration
it runs `ret = adc_buffer_init(); ret = adc_timer_init(); ... return ret;`
— the status of `adc_buffer_init` is overwritten by the status of
`adc_timer_init` (here the parameter `timerStatus`) and only the latter is
returned. (`algo_white_init` only sets the algorithm function pointer.) -/
def adc_init (C B : Nat) (adcAllocOk dacAllocOk : Bool)
    (timerStatus : EspErr) : EspErr × Option AdcState :=
  let bufRes := adc_buffer_init C B adcAllocOk dacAllocOk
  (timerStatus, bufRes.2)

/-- Iterated ticks of the timer interrupt handler: one handler execution
per element of `samples` (the successive `adc1_get_raw` values), threading
the buffer state and the dispatch queue. -/
def adc_run (C B : Nat) (samples : List Nat) (s : AdcState)
    (q : DispatchQueue) : AdcState × DispatchQueue :=
  samples.foldl
    (fun sq smp =>
      let r := adc_timer_intr_handler C B smp sq.1 sq.2
      (r.state, r.queue))
    (s, q)

/-- The successive values emitted to the DAC over iterated ticks of the
timer interrupt handler. -/
def adc_run_emits (C B : Nat) : List Nat → AdcState → DispatchQueue → List Nat
  | [], _, _ => []
  | smp :: rest, s, q =>
      dac_output s.dac_buffer s.dac_buffer_pos ::
        adc_run_emits C B rest
          (adc_timer_intr_handler C B smp s q).state
          (adc_timer_intr_handler C B smp s q).queue

/-- Static initializer `s_algo_template_read_size = 2048` of
algo_masking.c (an int). -/
def s_algo_template_read_size : Int := 2048

/-- Static initializer `s_algo_sampling_freq = 40000` of algo_masking.c
(an int). -/
def s_algo_sampling_freq : Int := 40000

/-- Static initializer of `s_algo_total_time` in algo_masking.c:
`s_algo_template_read_size / s_algo_sampling_freq`, a C *integer* division
of the two int globals whose truncated result is then converted to float.
The exact value of that float is modelled as a rational. -/
def s_algo_total_time : Rat :=
  ((s_algo_template_read_size / s_algo_sampling_freq : Int) : Rat)

/-- Modelled from the spec: the analysis window duration
`total_time = block_size / sample_rate` as an exact real quantity, at the
configured block size 2048 and sample rate 40000 Hz. -/
def specTotalTime : Rat := (2048 : Rat) / 40000

/-- The fft_config_t plan of the fft library as used by algo_masking.c:
its size and its input and output sample arrays (floats, modelled as
exact reals). -/
structure FftConfig where
  size : Nat
  input : List Real
  output : List Real

/-- Magnitude of bin `k` as computed by algo_masking.c:
`sqrt(pow(output[2*k], 2) + pow(output[2*k+1], 2))` — the real part of a
bin is followed by its imaginary part in the plan's output array. -/
noncomputable def binMag (output : List Real) (k : Nat) : Real :=
  Real.sqrt ((output.getD (2 * k) 0) ^ 2 + (output.getD (2 * k + 1) 0) ^ 2)

/-- Frequency of bin `k` as computed by algo_masking.c:
`k * 1.0 / s_algo_total_time`. -/
noncomputable def binFreq (totalTime : Real) (k : Nat) : Real :=
  (k : Real) / totalTime

/-- One iteration of the bin loop of `algo_masking`: if the bin magnitude
strictly exceeds the running maximum `s_algo_max_magnitude`, both the
maximum and `s_algo_fundamental_freq` are replaced by this bin's
magnitude and frequency. The running state is the pair
(s_algo_max_magnitude, s_algo_fundamental_freq). -/
noncomputable def maskingBinStep (totalTime : Real) (output : List Real)
    (st : Real × Real) (k : Nat) : Real × Real :=
  if st.1 < binMag output k then (binMag output k, binFreq totalTime k)
  else st

/-- The bin loop of `algo_masking`: `for (k = 1; k < size/2; k++)`,
folding `maskingBinStep` over the bins `1, …, half - 1` where
`half = size / 2`. -/
noncomputable def maskingScan (totalTime : Real) (output : List Real)
    (half : Nat) (st : Real × Real) : Real × Real :=
  (List.range' 1 (half - 1)).foldl (maskingBinStep totalTime output) st

/-- `algo_masking` of algo_masking.c. Copies `readSize` input samples
starting at `in_pos` into the plan's input array (no call of the fft
library's execute function is made), then runs the bin loop over the
plan's *existing* output array updating the running
(max magnitude, fundamental frequency) state. The output block `out_buff`
is returned as the function leaves it: the source's writes to
`out_buff[out_pos + i]` are commented out, so no sample of the output
block is written. (The source's final log statement reads a variable
`freq` that is out of scope there; it is not modelled.) -/
noncomputable def algo_masking (readSize : Nat) (totalTime : Real)
    (plan : FftConfig) (maxMag fundFreq : Real)
    (in_buff out_buff : List Nat) (in_pos out_pos : Nat) :
    FftConfig × (Real × Real) × List Nat :=
  let inputCopied := (List.range readSize).foldl
    (fun inp i => inp.set i ((in_buff.getD (in_pos + i) 0 : Nat) : Real))
    plan.input
  let planAfter : FftConfig := { plan with input := inputCopied }
  let stAfter := maskingScan totalTime planAfter.output (planAfter.size / 2)
    (maxMag, fundFreq)
  (planAfter, stAfter, out_buff)

/-- The private state of the masking algorithm variant: the globals
`s_algo_template_read_size`, `s_period`, `s_algo_max_magnitude` and
`s_algo_fundamental_freq` of algo_masking.c. -/
structure MaskingState where
  read_size : Int
  period : Int
  max_magnitude : Real
  fundamental_freq : Real

/-- The state given by the static initializers of algo_masking.c:
read size 2048, period 30, max magnitude 0, fundamental frequency 0. -/
def maskingStaticInit : MaskingState := ⟨2048, 30, 0, 0⟩

/-- `algo_masking_init` of algo_masking.c: stores the read size and the
period from the init params. Its remaining statements only create
function-local arrays and a function-local plan pointer that is dropped
at return, so no other global changes: in particular
`s_algo_max_magnitude` and `s_algo_fundamental_freq` are not written. -/
def algo_masking_init (read_size period : Int) (s : MaskingState) :
    MaskingState :=
  { s with read_size := read_size, period := period }

/-- `algo_masking_deinit` of algo_masking.c: an empty body. -/
def algo_masking_deinit (s : MaskingState) : MaskingState := s

end Fad

namespace Fad

/-- The handler leaves the DAC output buffer unchanged (only the worker
context's algorithm ever writes it). -/
theorem tick_preserves_dac_buffer (C B sample : Nat) (s : AdcState)
    (q : DispatchQueue) :
    (adc_timer_intr_handler C B sample s q).state.dac_buffer = s.dac_buffer :=
  rfl

/-- One tick preserves the cursor-offset invariant
`dac_buffer_pos = (adc_buffer_pos + (C - B)) % C`. -/
theorem tick_preserves_offset (C B sample : Nat) (s : AdcState)
    (q : DispatchQueue)
    (h : s.dac_buffer_pos = (s.adc_buffer_pos + (C - B)) % C) :
    (adc_timer_intr_handler C B sample s q).state.dac_buffer_pos
      = ((adc_timer_intr_handler C B sample s q).state.adc_buffer_pos
          + (C - B)) % C := by
  show (s.dac_buffer_pos + 1) % C
      = ((s.adc_buffer_pos + 1) % C + (C - B)) % C
  rw [h, Nat.mod_add_mod, Nat.mod_add_mod]
  congr 1
  omega

/-- The cursor-offset invariant is preserved by any number of ticks. -/
theorem run_preserves_offset (C B : Nat) :
    ∀ (samples : List Nat) (s : AdcState) (q : DispatchQueue),
      s.dac_buffer_pos = (s.adc_buffer_pos + (C - B)) % C →
      (adc_run C B samples s q).1.dac_buffer_pos
        = ((adc_run C B samples s q).1.adc_buffer_pos + (C - B)) % C := by
  intro samples
  induction samples with
  | nil => intro s q h; exact h
  | cons smp rest ih =>
      intro s q h
      have hstep := tick_preserves_offset C B smp s q h
      exact ih (adc_timer_intr_handler C B smp s q).state
        (adc_timer_intr_handler C B smp s q).queue hstep

/-- C1: for every configuration with `adc_algo_size` dividing
`ADC_BUFFER_SIZE`, `adc_buffer_init` establishes `adc_buffer_pos = 0` and
`dac_buffer_pos = ADC_BUFFER_SIZE - adc_algo_size`; this initial state
satisfies the offset invariant (the DAC cursor trails the ADC cursor by
exactly one block size modulo the capacity), and the invariant still holds
after any number of ISR ticks, each of which advances both cursors by one
modulo the capacity. -/
theorem cursor_offset_invariant (C B : Nat) (hC : 0 < C) (hB : 0 < B)
    (hdvd : B ∣ C) (samples : List Nat) (q : DispatchQueue) :
    adc_buffer_init C B true true = (EspErr.ok, some (adcInitState C B))
  ∧ (adcInitState C B).adc_buffer_pos = 0
  ∧ (adcInitState C B).dac_buffer_pos = C - B
  ∧ (adcInitState C B).dac_buffer_pos
      = ((adcInitState C B).adc_buffer_pos + (C - B)) % C
  ∧ (adc_run C B samples (adcInitState C B) q).1.dac_buffer_pos
      = ((adc_run C B samples (adcInitState C B) q).1.adc_buffer_pos
          + (C - B)) % C := by
  have hBC : B ≤ C := Nat.le_of_dvd hC hdvd
  have h0 : (adcInitState C B).dac_buffer_pos
      = ((adcInitState C B).adc_buffer_pos + (C - B)) % C := by
    show C - B = (0 + (C - B)) % C
    rw [Nat.zero_add, Nat.mod_eq_of_lt (Nat.sub_lt hC hB)]
  exact ⟨rfl, rfl, rfl, h0, run_preserves_offset C B samples _ q h0⟩

/-- C2: on every tick the handler performs, in source order: (1) on a
block boundary (`adc_buffer_pos % B = 0`), allocation of an event record
carrying the current pre-advance cursor pair followed by the non-blocking
dispatch attempt with exactly that event and the free of the record;
(2) the store of the sampled value at the input cursor; (3) the emission
of `dac_buffer[dac_buffer_pos]` to the DAC; (4) the advance of both
cursors by one modulo the capacity. -/
theorem tick_step_order (C B sample : Nat) (s : AdcState)
    (q : DispatchQueue) :
    (adc_timer_intr_handler C B sample s q).actions
      = (if s.adc_buffer_pos % B = 0 then
          [IsrAction.mallocParams,
           IsrAction.dispatchEvt ⟨s.adc_buffer_pos, s.dac_buffer_pos⟩,
           IsrAction.freeParams]
         else [])
        ++ [IsrAction.storeAdc s.adc_buffer_pos sample,
            IsrAction.emitDac s.dac_buffer_pos
              (dac_output s.dac_buffer s.dac_buffer_pos),
            IsrAction.advanceCursors]
  ∧ (adc_timer_intr_handler C B sample s q).queue
      = (if s.adc_buffer_pos % B = 0 then
          (fad_app_work_dispatch q ⟨s.adc_buffer_pos, s.dac_buffer_pos⟩).1
         else q)
  ∧ (adc_timer_intr_handler C B sample s q).state.adc_buffer
      = s.adc_buffer.set s.adc_buffer_pos sample
  ∧ (adc_timer_intr_handler C B sample s q).state.adc_buffer_pos
      = (s.adc_buffer_pos + 1) % C
  ∧ (adc_timer_intr_handler C B sample s q).state.dac_buffer_pos
      = (s.dac_buffer_pos + 1) % C :=
  ⟨rfl, rfl, rfl, rfl, rfl⟩

/-- C3: contrary to the claim, the timer interrupt handler does perform a
heap allocation in interrupt context: on the very first tick after
initialization (block-boundary tick, `adc_buffer_pos = 0`) the handler
calls `malloc(sizeof(adc_evt_params))` (and later `free`), so its action
trace contains exactly one heap allocation. -/
theorem tick_allocates_on_boundary :
    ((adc_timer_intr_handler 8 4 7 (adcInitState 8 4) ⟨2, [], 0⟩).actions.countP
        IsrAction.isMalloc) = 1
  ∧ IsrAction.mallocParams
      ∈ (adc_timer_intr_handler 8 4 7 (adcInitState 8 4) ⟨2, [], 0⟩).actions := by
  decide

/-- C5: `adc_init` overwrites the status returned by `adc_buffer_init`
with the status of `adc_timer_init` and returns the latter, so a buffer
allocation failure (ESP_ERR_NO_MEM, no buffer state established) is
reported as ESP_OK when the timer initializes successfully; furthermore
`adc_buffer_init` succeeds for a block size that does not divide the
buffer capacity (10 and 3 here) because no divisibility check exists. -/
theorem adc_init_swallows_buffer_error :
    (adc_init 2048 256 false true EspErr.ok).1 = EspErr.ok
  ∧ (adc_buffer_init 2048 256 false true).1 = EspErr.errNoMem
  ∧ (adc_buffer_init 2048 256 false true).2 = none
  ∧ (adc_buffer_init 10 3 true true).1 = EspErr.ok
  ∧ ¬ (3 ∣ 10) := by
  refine ⟨rfl, rfl, rfl, rfl, by decide⟩

/-- C9: when the dispatch queue is full on a block-boundary tick, the
event is dropped (the queue contents are unchanged), the drop is counted
as a diagnostic, the handler makes exactly one dispatch attempt (no
synchronous retry), and sampling continues: the sample is still stored at
the input cursor and both cursors advance by one modulo the capacity. -/
theorem tick_queue_full_drop (C B sample : Nat) (s : AdcState)
    (q : DispatchQueue) (hb : s.adc_buffer_pos % B = 0)
    (hq : q.cap ≤ q.events.length) :
    (adc_timer_intr_handler C B sample s q).queue.events = q.events
  ∧ (adc_timer_intr_handler C B sample s q).queue.dropCount = q.dropCount + 1
  ∧ ((adc_timer_intr_handler C B sample s q).actions.countP
        IsrAction.isDispatchEvt) = 1
  ∧ (adc_timer_intr_handler C B sample s q).state.adc_buffer
      = s.adc_buffer.set s.adc_buffer_pos sample
  ∧ (adc_timer_intr_handler C B sample s q).state.adc_buffer_pos
      = (s.adc_buffer_pos + 1) % C
  ∧ (adc_timer_intr_handler C B sample s q).state.dac_buffer_pos
      = (s.dac_buffer_pos + 1) % C := by
  have hfull : ¬ (q.events.length < q.cap) := not_lt.mpr hq
  refine ⟨?_, ?_, ?_, rfl, rfl, rfl⟩
  · simp [adc_timer_intr_handler, fad_app_work_dispatch, hb, hfull]
  · simp [adc_timer_intr_handler, fad_app_work_dispatch, hb, hfull]
  · simp [adc_timer_intr_handler, hb, List.countP_append, List.countP_cons,
      IsrAction.isDispatchEvt]

/-- Witness for C9: a full one-slot queue on the block-boundary tick at
the initial state of the C = 8, B = 4 configuration. -/
theorem tick_queue_full_drop_witness :
    ((adcInitState 8 4).adc_buffer_pos % 4 = 0
     ∧ (⟨1, [⟨0, 4⟩], 0⟩ : DispatchQueue).cap
         ≤ (⟨1, [⟨0, 4⟩], 0⟩ : DispatchQueue).events.length)
  ∧ ((adc_timer_intr_handler 8 4 7 (adcInitState 8 4)
        ⟨1, [⟨0, 4⟩], 0⟩).queue.events = (⟨1, [⟨0, 4⟩], 0⟩ : DispatchQueue).events
     ∧ (adc_timer_intr_handler 8 4 7 (adcInitState 8 4)
        ⟨1, [⟨0, 4⟩], 0⟩).queue.dropCount
         = (⟨1, [⟨0, 4⟩], 0⟩ : DispatchQueue).dropCount + 1
     ∧ ((adc_timer_intr_handler 8 4 7 (adcInitState 8 4)
        ⟨1, [⟨0, 4⟩], 0⟩).actions.countP IsrAction.isDispatchEvt) = 1
     ∧ (adc_timer_intr_handler 8 4 7 (adcInitState 8 4)
        ⟨1, [⟨0, 4⟩], 0⟩).state.adc_buffer
         = (adcInitState 8 4).adc_buffer.set (adcInitState 8 4).adc_buffer_pos 7
     ∧ (adc_timer_intr_handler 8 4 7 (adcInitState 8 4)
        ⟨1, [⟨0, 4⟩], 0⟩).state.adc_buffer_pos
         = ((adcInitState 8 4).adc_buffer_pos + 1) % 8
     ∧ (adc_timer_intr_handler 8 4 7 (adcInitState 8 4)
        ⟨1, [⟨0, 4⟩], 0⟩).state.dac_buffer_pos
         = ((adcInitState 8 4).dac_buffer_pos + 1) % 8) :=
  ⟨⟨by decide, by decide⟩,
   tick_queue_full_drop 8 4 7 (adcInitState 8 4) ⟨1, [⟨0, 4⟩], 0⟩
     (by decide) (by decide)⟩

/-- The Nat default-read of an all-zero replicated list is zero at every
index (in range or not). -/
theorem getD_replicate_zero (n : Nat) :
    ∀ (i : Nat), (List.replicate n (0 : Nat)).getD i 0 = 0 := by
  induction n with
  | zero => intro i; rfl
  | succ n ih =>
      intro i
      cases i with
      | zero => rfl
      | succ j => simp only [List.replicate_succ, List.getD_cons_succ]; exact ih j

/-- From any state whose DAC buffer is all zeros, every sample emitted to
the DAC over any number of ticks is zero (the handler never writes the
DAC buffer). -/
theorem emits_zero_of_zero_dac (C B : Nat) :
    ∀ (samples : List Nat) (s : AdcState) (q : DispatchQueue),
      s.dac_buffer = List.replicate C 0 →
      adc_run_emits C B samples s q = List.replicate samples.length 0 := by
  intro samples
  induction samples with
  | nil => intro s q _; rfl
  | cons smp rest ih =>
      intro s q h
      have hhead : dac_output s.dac_buffer s.dac_buffer_pos = 0 := by
        rw [h]; exact getD_replicate_zero C s.dac_buffer_pos
      have hdac : (adc_timer_intr_handler C B smp s q).state.dac_buffer
          = List.replicate C 0 := by
        rw [tick_preserves_dac_buffer]; exact h
      simp only [adc_run_emits, List.length_cons, List.replicate_succ, hhead]
      exact congrArg (List.cons 0) (ih _ _ hdac)

/-- C10: a successful `adc_buffer_init` returns both buffers entirely
zeroed (calloc) with the cursors at 0 and capacity minus block size, and
from that state every sample the ISR emits to the DAC — for any number of
ticks before any algorithm writes the output buffer — is zero. -/
theorem init_zeroed_and_emits_zero (C B : Nat) (samples : List Nat)
    (q : DispatchQueue) :
    adc_buffer_init C B true true
      = (EspErr.ok, some ⟨List.replicate C 0, List.replicate C 0, 0, C - B⟩)
  ∧ adc_run_emits C B samples (adcInitState C B) q
      = List.replicate samples.length 0 :=
  ⟨rfl, emits_zero_of_zero_dac C B samples (adcInitState C B) q rfl⟩

/-- C4: contrary to the claim, `algo_masking` neither executes the
forward transform nor writes the output block: the plan's output array
(and size) are returned unchanged — the bins scanned are whatever the
output array already held, no transform of the copied input is run — and
the output block is returned exactly as it was handed in, since the
source's writes to `out_buff` are commented out. -/
theorem algo_masking_no_output_write (readSize : Nat) (totalTime : Real)
    (plan : FftConfig) (maxMag fundFreq : Real)
    (in_buff out_buff : List Nat) (in_pos out_pos : Nat) :
    (algo_masking readSize totalTime plan maxMag fundFreq
        in_buff out_buff in_pos out_pos).2.2 = out_buff
  ∧ (algo_masking readSize totalTime plan maxMag fundFreq
        in_buff out_buff in_pos out_pos).1.output = plan.output
  ∧ (algo_masking readSize totalTime plan maxMag fundFreq
        in_buff out_buff in_pos out_pos).1.size = plan.size :=
  ⟨rfl, rfl, rfl⟩

/-- C6: the static initializer of `s_algo_total_time` divides the two int
globals with C integer division, so the stored value is 0, not the exact
block-duration 2048 / 40000 = 0.0512 seconds the spec derives; every bin
frequency `k / s_algo_total_time` therefore divides by zero. -/
theorem total_time_integer_division :
    s_algo_total_time = 0
  ∧ specTotalTime = 0.0512
  ∧ s_algo_total_time ≠ specTotalTime := by
  have hint : (s_algo_template_read_size / s_algo_sampling_freq : Int) = 0 := by
    decide
  have h1 : s_algo_total_time = 0 := by
    unfold s_algo_total_time
    rw [hint]
    exact Int.cast_zero
  have h2 : specTotalTime = 0.0512 := by
    unfold specTotalTime
    norm_num
  refine ⟨h1, h2, ?_⟩
  rw [h1, h2]
  norm_num

/-- The first component of the conditional-update fold is the running
maximum of the base value and the scanned values. -/
theorem trackFold_fst (f g : Nat → Real) :
    ∀ (ks : List Nat) (a : Real × Real),
      (ks.foldl (fun st b => if st.1 < f b then (f b, g b) else st) a).1
        = ks.foldl (fun x b => max x (f b)) a.1 := by
  intro ks
  induction ks with
  | nil => intro a; rfl
  | cons k t ih =>
      intro a
      simp only [List.foldl_cons]
      rw [ih]
      congr 1
      by_cases h : a.1 < f k
      · rw [if_pos h]
        exact (max_eq_right h.le).symm
      · rw [if_neg h]
        exact (max_eq_left (not_lt.mp h)).symm

/-- The base value is a lower bound of a running-maximum fold. -/
theorem le_foldlMax (f : Nat → Real) :
    ∀ (ks : List Nat) (x : Real),
      x ≤ ks.foldl (fun a b => max a (f b)) x := by
  intro ks
  induction ks with
  | nil => intro x; exact le_refl x
  | cons k t ih =>
      intro x
      simp only [List.foldl_cons]
      exact le_trans (le_max_left x (f k)) (ih (max x (f k)))

/-- Every scanned value is a lower bound of a running-maximum fold. -/
theorem mem_le_foldlMax (f : Nat → Real) :
    ∀ (ks : List Nat) (x : Real) (m : Nat), m ∈ ks →
      f m ≤ ks.foldl (fun a b => max a (f b)) x := by
  intro ks
  induction ks with
  | nil => intro x m hm; exact absurd hm (List.not_mem_nil m)
  | cons k t ih =>
      intro x m hm
      simp only [List.foldl_cons]
      rcases List.mem_cons.mp hm with h | h
      · subst h
        exact le_trans (le_max_right x (f m)) (le_foldlMax f t (max x (f m)))
      · exact ih (max x (f k)) m h

/-- The conditional-update fold either returns its base state unchanged,
or returns the (value, tag) pair of a scanned index that strictly
exceeded the base and was never strictly exceeded by a later index — the
index that last raised the running maximum. -/
theorem trackFold_last_raise (f g : Nat → Real) :
    ∀ (ks : List Nat) (a : Real × Real),
      ks.foldl (fun st b => if st.1 < f b then (f b, g b) else st) a = a
      ∨ ∃ k, k ∈ ks
          ∧ ks.foldl (fun st b => if st.1 < f b then (f b, g b) else st) a
              = (f k, g k)
          ∧ a.1 < f k
          ∧ ∀ j, j ∈ ks → k < j → f j ≤ f k := by
  intro ks
  induction ks with
  | nil => intro a; exact Or.inl rfl
  | cons k t ih =>
      intro a
      simp only [List.foldl_cons]
      by_cases h : a.1 < f k
      · rw [if_pos h]
        rcases ih (f k, g k) with h2 | h2
        · refine Or.inr ⟨k, List.mem_cons_self k t, h2, h, ?_⟩
          intro j hj hkj
          rcases List.mem_cons.mp hj with rfl | hj2
          · exact absurd hkj (lt_irrefl j)
          · have h3 := mem_le_foldlMax f t (f k) j hj2
            have h4 := trackFold_fst f g t (f k, g k)
            rw [h2] at h4
            exact le_trans h3 (le_of_eq h4.symm)
        · rcases h2 with ⟨j, hj, hfold, hlt, hlast⟩
          refine Or.inr ⟨j, List.mem_cons_of_mem k hj, hfold, lt_trans h hlt, ?_⟩
          intro m hm hjm
          rcases List.mem_cons.mp hm with rfl | hm2
          · exact le_of_lt hlt
          · exact hlast m hm2 hjm
      · rw [if_neg h]
        rcases ih a with h2 | h2
        · exact Or.inl h2
        · rcases h2 with ⟨j, hj, hfold, hlt, hlast⟩
          refine Or.inr ⟨j, List.mem_cons_of_mem k hj, hfold, hlt, ?_⟩
          intro m hm hjm
          rcases List.mem_cons.mp hm with rfl | hm2
          · exact le_of_lt (lt_of_le_of_lt (not_lt.mp h) hlt)
          · exact hlast m hm2 hjm

/-- C7: over the bins `k ∈ [1, size/2)` with magnitude
`binMag = sqrt(re² + im²)` and frequency `binFreq = k / total_time`, the
bin loop leaves `s_algo_max_magnitude` equal to the maximum of its value
before the call and all bin magnitudes of the scanned block (hence
monotonically non-decreasing across calls, never reset), and leaves
`s_algo_fundamental_freq` either untouched (no bin exceeded the old
maximum) or equal to the frequency of a bin that strictly exceeded the
old maximum and is not strictly exceeded by any later bin — the bin that
last raised the maximum. -/
theorem masking_peak_tracking (totalTime : Real) (output : List Real)
    (half : Nat) (m f0 : Real) :
    (maskingScan totalTime output half (m, f0)).1
        = (List.range' 1 (half - 1)).foldl
            (fun x k => max x (binMag output k)) m
  ∧ m ≤ (maskingScan totalTime output half (m, f0)).1
  ∧ (maskingScan totalTime output half (m, f0) = (m, f0)
     ∨ ∃ k, k ∈ List.range' 1 (half - 1)
         ∧ maskingScan totalTime output half (m, f0)
             = (binMag output k, binFreq totalTime k)
         ∧ m < binMag output k
         ∧ ∀ j, j ∈ List.range' 1 (half - 1) → k < j →
             binMag output j ≤ binMag output k) := by
  have e : maskingScan totalTime output half (m, f0)
      = (List.range' 1 (half - 1)).foldl
          (fun st b => if st.1 < binMag output b
            then (binMag output b, binFreq totalTime b) else st)
          (m, f0) := rfl
  refine ⟨?_, ?_, ?_⟩
  · rw [e]
    exact trackFold_fst (binMag output) (binFreq totalTime) _ (m, f0)
  · rw [e, trackFold_fst (binMag output) (binFreq totalTime) _ (m, f0)]
    exact le_foldlMax (binMag output) _ m
  · rw [e]
    exact trackFold_last_raise (binMag output) (binFreq totalTime) _ (m, f0)

/-- C8 counterexample: `algo_masking_init` does not zero the running
peak state — after a deinit/init cycle starting from a state with peak
magnitude 5 and fundamental frequency 440, both values survive, and 5 is
not 0 as the claim requires. -/
theorem masking_init_retains_peak_cex :
    (algo_masking_init 2048 30
        (algo_masking_deinit ⟨2048, 30, 5, 440⟩)).max_magnitude = 5
  ∧ (algo_masking_init 2048 30
        (algo_masking_deinit ⟨2048, 30, 5, 440⟩)).fundamental_freq = 440
  ∧ (5 : Real) ≠ 0 :=
  ⟨rfl, rfl, by norm_num⟩

/-- C8 (amended): the peak-magnitude/frequency state is zero only by the
static initializers at program load; `algo_masking_init` stores the read
size and period but preserves the peak state across a
deinit-then-init variant switch, so residual peak state from before the
switch remains observable in the first process call after it. -/
theorem masking_init_preserves_peak (read_size period : Int)
    (s : MaskingState) :
    (algo_masking_init read_size period
        (algo_masking_deinit s)).max_magnitude = s.max_magnitude
  ∧ (algo_masking_init read_size period
        (algo_masking_deinit s)).fundamental_freq = s.fundamental_freq
  ∧ (algo_masking_init read_size period
        (algo_masking_deinit s)).read_size = read_size
  ∧ (algo_masking_init read_size period
        (algo_masking_deinit s)).period = period
  ∧ maskingStaticInit.max_magnitude = 0
  ∧ maskingStaticInit.fundamental_freq = 0 :=
  ⟨rfl, rfl, rfl, rfl, rfl, rfl⟩

/-- Witness for C1 at the concrete configuration C = 8, B = 4, three ticks. -/
theorem cursor_offset_invariant_witness :
    (0 < 8 ∧ 0 < 4 ∧ (4 : Nat) ∣ 8)
  ∧ (adc_buffer_init 8 4 true true = (EspErr.ok, some (adcInitState 8 4))
     ∧ (adcInitState 8 4).adc_buffer_pos = 0
     ∧ (adcInitState 8 4).dac_buffer_pos = 8 - 4
     ∧ (adcInitState 8 4).dac_buffer_pos
         = ((adcInitState 8 4).adc_buffer_pos + (8 - 4)) % 8
     ∧ (adc_run 8 4 [1, 2, 3] (adcInitState 8 4) ⟨2, [], 0⟩).1.dac_buffer_pos
         = ((adc_run 8 4 [1, 2, 3] (adcInitState 8 4) ⟨2, [], 0⟩).1.adc_buffer_pos
             + (8 - 4)) % 8) :=
  ⟨⟨by decide, by decide, by decide⟩,
   cursor_offset_invariant 8 4 (by decide) (by decide) (by decide)
     [1, 2, 3] ⟨2, [], 0⟩⟩

end Fad
